import Mathlib

/-!
Verification of the shade-conductor state synchronization hub and timeline
scheduler. The definitions below are a shallow embedding of the TypeScript
sources: JS floats are modelled as rationals, nullable values as Option,
thrown RangeErrors as Except, and the WebSocket broadcast stream as a list
of messages. Timer-driven scheduling is modelled with an explicit list of
armed timers carrying their absolute fire time and the chapter index the
setTimeout callback captured.
-/

namespace ShadeConductor

/-- Palette of four RGB triples (types.ts PaletteConfig); components are rationals. -/
structure PaletteConfig where
  color1 : ℚ × ℚ × ℚ
  color2 : ℚ × ℚ × ℚ
  color3 : ℚ × ℚ × ℚ
  bg : ℚ × ℚ × ℚ
deriving DecidableEq

/-- Audio source to uniform target binding (types.ts AudioBinding). -/
structure AudioBinding where
  source : String
  target : String
  multiplier : ℚ
  offset : ℚ
  smoothing : ℚ
deriving DecidableEq

/-- Automation keyframe (types.ts Keyframe); easing kept as a plain string. -/
structure Keyframe where
  time : ℚ
  value : ℚ
  easing : String
deriving DecidableEq

/-- Automation curve (types.ts Automation). -/
structure Automation where
  target : String
  keyframes : List Keyframe
deriving DecidableEq

/-- Chapter transition kinds (types.ts SetlistChapter.transition_in). -/
inductive Transition
  | cut
  | crossfade
  | flash
deriving DecidableEq

/-- Wire messages sent to renderer clients (types.ts WSMessageToClient),
restricted to the kinds the verified components emit. -/
inductive Msg
  | shader_push (code sid : String)
  | shader_crossfade (code sid : String) (duration : ℚ)
  | param_set (name : String) (value : ℚ)
  | palette_set (colors : PaletteConfig)
  | get_state
  | chapter_info (name : String) (index total : ℕ)
  | ext_set (channel : ℕ) (value : ℚ)
  | ext_xy_set (channel : ℕ) (x y : ℚ)
  | bpm_set (bpm : ℚ)
  | automation (automations : List Automation)
  | audio_bind (binding : AudioBinding)
  | audio_unbind (target : String)
  | perform_flash (duration : ℚ)
deriving DecidableEq

/-- RangeError variants thrown by the server mirror setters (server.ts). -/
inductive RangeErr
  | extChannel (got : ℤ)
  | xyChannel (got : ℤ)
  | bpmRange (got : ℚ)
deriving DecidableEq

/-- Server-side state mirror (module-level state of server.ts). The 16 float
channels and 4 XY channels are modelled as total functions on array indices. -/
structure ServerState where
  extChannels : ℕ → ℚ
  extXY : ℕ → ℚ × ℚ
  bpm : ℚ
  audioBindings : List AudioBinding
  currentShaderId : Option String
  currentShaderCode : Option String
  currentPalette : PaletteConfig

/-- Palette value all fields start at (server.ts currentPalette initializer). -/
def blackPalette : PaletteConfig :=
  ⟨(0, 0, 0), (0, 0, 0), (0, 0, 0), (0, 0, 0)⟩

/-- Initial module state of server.ts: channels 0, XY (0,0), bpm 120. -/
def initialServerState : ServerState :=
  { extChannels := fun _ => 0
    extXY := fun _ => (0, 0)
    bpm := 120
    audioBindings := []
    currentShaderId := none
    currentShaderCode := none
    currentPalette := blackPalette }

/-- server.ts setExternalInput: guard the channel range, write the mirror slot,
broadcast an ext_set message. -/
def setExternalInput (st : ServerState) (channel : ℤ) (value : ℚ) :
    Except RangeErr (ServerState × List Msg) :=
  if channel < 0 ∨ channel > 15 then
    .error (.extChannel channel)
  else
    .ok ({ st with extChannels := fun j => if j = channel.toNat then value else st.extChannels j },
         [Msg.ext_set channel.toNat value])

/-- server.ts setExternalXY: guard the channel range, write the mirror slot,
broadcast an ext_xy_set message. -/
def setExternalXY (st : ServerState) (channel : ℤ) (x y : ℚ) :
    Except RangeErr (ServerState × List Msg) :=
  if channel < 0 ∨ channel > 3 then
    .error (.xyChannel channel)
  else
    .ok ({ st with extXY := fun j => if j = channel.toNat then (x, y) else st.extXY j },
         [Msg.ext_xy_set channel.toNat x y])

/-- server.ts setBpm: the source guard is value less or equal 0, or above 999. -/
def setBpm (st : ServerState) (value : ℚ) :
    Except RangeErr (ServerState × List Msg) :=
  if value ≤ 0 ∨ value > 999 then
    .error (.bpmRange value)
  else
    .ok ({ st with bpm := value }, [Msg.bpm_set value])

/-- Snapshot returned by server.ts getServerState (defensive copies of the
channel arrays as lists). -/
structure ServerSnapshot where
  extChannels : List ℚ
  extXY : List (ℚ × ℚ)
  bpm : ℚ
  audioBindings : List AudioBinding
  currentShaderId : Option String
deriving DecidableEq

/-- server.ts getServerState. -/
def getServerState (st : ServerState) : ServerSnapshot :=
  { extChannels := (List.range 16).map st.extChannels
    extXY := (List.range 4).map st.extXY
    bpm := st.bpm
    audioBindings := st.audioBindings
    currentShaderId := st.currentShaderId }

/-- Shader part of the join-time sync: server.ts checks currentShaderCode and
currentShaderId for JS truthiness, so empty strings also suppress the push. -/
def shaderSyncMsgs (st : ServerState) : List Msg :=
  match st.currentShaderCode, st.currentShaderId with
  | some code, some sid => if code ≠ "" ∧ sid ≠ "" then [Msg.shader_push code sid] else []
  | _, _ => []

/-- server.ts sendSyncToClient: every nonzero ext channel, every XY pair other
than (0,0), the bpm, the current shader if truthy, the palette, then a
get_state request. -/
def sendSyncToClient (st : ServerState) : List Msg :=
  ((List.range 16).filterMap fun i =>
    if st.extChannels i ≠ 0 then some (Msg.ext_set i (st.extChannels i)) else none) ++
  ((List.range 4).filterMap fun i =>
    if (st.extXY i).1 ≠ 0 ∨ (st.extXY i).2 ≠ 0 then
      some (Msg.ext_xy_set i (st.extXY i).1 (st.extXY i).2)
    else none) ++
  [Msg.bpm_set st.bpm] ++
  shaderSyncMsgs st ++
  [Msg.palette_set st.currentPalette, Msg.get_state]

/-- Combined view of the mirror and the stream of messages broadcast to the
sessions connected so far. startOscBridge is invoked with broadcastToClients
as its broadcastFn (index.ts and input-tools.ts), which only fans out to
connected sockets and performs no mirror write. -/
structure OscSystem where
  mirror : ServerState
  delivered : List Msg

/-- osc-bridge.ts handler for /shade/ext/0 .. /shade/ext/15: decode the first
argument (default 0) and broadcast an ext_set message. -/
def handleOscExt (sys : OscSystem) (channel : ℕ) (args : List ℚ) : OscSystem :=
  { sys with delivered := sys.delivered ++ [Msg.ext_set channel (args.getD 0 0)] }

/-- osc-bridge.ts handler for /shade/xy/0 .. /shade/xy/3: decode two arguments
(default 0) and broadcast an ext_xy_set message. -/
def handleOscXY (sys : OscSystem) (channel : ℕ) (args : List ℚ) : OscSystem :=
  { sys with delivered := sys.delivered ++ [Msg.ext_xy_set channel (args.getD 0 0) (args.getD 1 0)] }

/-- osc-bridge.ts handler for /shade/bpm: decode the first argument
(default 120) and broadcast a bpm_set message. -/
def handleOscBpm (sys : OscSystem) (args : List ℚ) : OscSystem :=
  { sys with delivered := sys.delivered ++ [Msg.bpm_set (args.getD 0 120)] }

/-- Shader preset, reduced to the fields chapter emission reads
(types.ts ShaderPreset id and code). -/
structure Preset where
  pid : String
  code : String
deriving DecidableEq

/-- Preset repository, keyed by preset name (preset-store.ts, modelled at the
lookup-by-name interface of the store). -/
abbrev PresetRepo : Type := List (String × Preset)

/-- preset-store.ts getPreset: name lookup, none when absent. -/
def getPreset (repo : PresetRepo) (name : String) : Option Preset :=
  (repo.find? fun p => p.1 = name).map fun p => p.2

/-- Chapter of a setlist (types.ts SetlistChapter). Optional JS fields are
Options; params keep insertion order as an association list. -/
structure SetlistChapter where
  name : String
  shader : String
  start_time : ℚ
  end_time : ℚ
  transition_in : Transition
  transition_duration : ℚ
  params : Option (List (String × ℚ))
  palette : Option PaletteConfig
  audio_bindings : Option (List AudioBinding)
  automations : Option (List Automation)
deriving DecidableEq

/-- Setlist (types.ts Setlist, without the metadata fields the scheduler
never reads). -/
structure Setlist where
  name : String
  chapters : List SetlistChapter
deriving DecidableEq

/-- Setlist store keyed by name (preset-store.ts setlists directory). -/
abbrev SetlistStore : Type := List (String × Setlist)

/-- preset-store.ts getSetlist: name lookup, none when absent. -/
def getSetlist (store : SetlistStore) (name : String) : Option Setlist :=
  (store.find? fun p => p.1 = name).map fun p => p.2

/-- Result of setlist-tools.ts pushChapter: the synchronously broadcast
messages in order, the fire-and-forget delayed broadcasts armed by the flash
transition (delay in ms paired with the message; these detached timers are
not tracked by the scheduler), and the setCurrentShaderId effect. -/
structure PushResult where
  msgs : List Msg
  deferred : List (ℚ × Msg)
  shaderId : Option String
deriving DecidableEq

/-- Default chapter used to totalize in-bounds array reads of the source. -/
def defChapter : SetlistChapter :=
  ⟨"", "", 0, 0, Transition.cut, 0, none, none, none, none⟩

/-- setlist-tools.ts pushChapter. When the preset lookup fails the source logs
and returns at once, so nothing at all is emitted. Otherwise it emits the
transition messages, per-chapter params, palette, audio bindings, automations
(only when the list is nonempty) and the chapter_info notification. -/
def pushChapter (repo : PresetRepo) (chapter : SetlistChapter) (index total : ℕ) :
    PushResult :=
  match getPreset repo chapter.shader with
  | none => ⟨[], [], none⟩
  | some preset =>
    let shaderNow : List Msg :=
      match chapter.transition_in with
      | .crossfade => [Msg.shader_crossfade preset.code preset.pid chapter.transition_duration]
      | .flash => [Msg.perform_flash chapter.transition_duration]
      | .cut => [Msg.shader_push preset.code preset.pid]
    let shaderLater : List (ℚ × Msg) :=
      match chapter.transition_in with
      | .flash => [((chapter.transition_duration * 1000) / 2, Msg.shader_push preset.code preset.pid)]
      | _ => []
    let paramMsgs : List Msg :=
      match chapter.params with
      | some ps => ps.map fun nv => Msg.param_set nv.1 nv.2
      | none => []
    let paletteMsgs : List Msg :=
      match chapter.palette with
      | some p => [Msg.palette_set p]
      | none => []
    let bindMsgs : List Msg :=
      match chapter.audio_bindings with
      | some bs => bs.map fun b => Msg.audio_bind b
      | none => []
    let autoMsgs : List Msg :=
      match chapter.automations with
      | some auts => if auts.length > 0 then [Msg.automation auts] else []
      | none => []
    ⟨shaderNow ++ paramMsgs ++ paletteMsgs ++ bindMsgs ++ autoMsgs ++
       [Msg.chapter_info chapter.name index total],
     shaderLater, some preset.pid⟩

/-- Armed chapter-advance timer: setTimeout handle id, absolute fire time in
ms, and the nextIndex value the callback closed over at scheduling time. -/
structure TimerInfo where
  tid : ℕ
  fireAt : ℚ
  nextIndex : ℕ
deriving DecidableEq

/-- Server-side setlist playback info (server.ts SetlistPlayback, updated via
setSetlistPlayback). -/
structure SetlistPlayback where
  active : Bool
  setlistName : Option String
  chapterIndex : ℕ
  totalChapters : ℕ
  startedAt : Option ℚ
deriving DecidableEq

/-- Combined scheduler state: the module-level variables of setlist-tools.ts
(activeSetlist, playbackTimer, playbackStartedAt, currentChapterIndex,
isPaused, pauseOffset), the set of armed advance timers with a fresh-id
counter, the setSetlistPlayback and setCurrentShaderId mirror targets, and
the setlist store the tools read and delete from. -/
structure SchedState where
  activeSetlist : Option Setlist
  playbackTimer : Option ℕ
  playbackStartedAt : Option ℚ
  currentChapterIndex : ℕ
  isPaused : Bool
  pauseOffset : ℚ
  armed : List TimerInfo
  nextTimerId : ℕ
  playback : SetlistPlayback
  currentShaderId : Option String
  setlistStore : SetlistStore
deriving DecidableEq

/-- Initial scheduler state over a given setlist store. -/
def initialSched (store : SetlistStore) : SchedState :=
  { activeSetlist := none
    playbackTimer := none
    playbackStartedAt := none
    currentChapterIndex := 0
    isPaused := false
    pauseOffset := 0
    armed := []
    nextTimerId := 0
    playback := ⟨false, none, 0, 0, none⟩
    currentShaderId := none
    setlistStore := store }

/-- setlist-tools.ts clearPlayback: clearTimeout on the tracked handle and
null it out. Only the tracked timer is cancelled. -/
def clearPlayback (s : SchedState) : SchedState :=
  match s.playbackTimer with
  | some t => { s with armed := s.armed.filter fun x => x.tid ≠ t, playbackTimer := none }
  | none => s

/-- setlist-tools.ts scheduleNextChapter: return when no setlist is armed or
paused; when the next index runs off the end mark playback inactive; otherwise
arm a setTimeout for the remaining duration of the current chapter (full
duration minus pauseOffset, floored at 0) without cancelling anything. -/
def scheduleNextChapter (s : SchedState) (now : ℚ) : SchedState :=
  match s.activeSetlist with
  | none => s
  | some setlist =>
    if s.isPaused then s
    else
      let nextIndex := s.currentChapterIndex + 1
      if setlist.chapters.length ≤ nextIndex then
        { s with playback := { s.playback with active := false } }
      else
        let currentChapter := setlist.chapters.getD s.currentChapterIndex defChapter
        let chapterDuration := (currentChapter.end_time - currentChapter.start_time) * 1000
        let elapsed := s.pauseOffset
        let remaining := max 0 (chapterDuration - elapsed)
        { s with
            armed := s.armed ++ [⟨s.nextTimerId, now + remaining, nextIndex⟩]
            playbackTimer := some s.nextTimerId
            nextTimerId := s.nextTimerId + 1 }

/-- Structured results of the setlist MCP tools (mcpText and mcpError
payloads, reduced to the verified content). -/
inductive SetlistResult
  | ok
  | errSetlistNotFound (name : String)
  | errMissingPresets (names : List String)
  | errNoSetlist
  | alreadyPaused
  | errChapterNotFound
deriving DecidableEq

/-- setlist-tools.ts setlist_load: fetch the setlist, collect every chapter
whose shader preset is missing, reject listing them all if any, otherwise arm
the setlist, reset index and pause state, cancel the tracked timer, and
publish the playback info. -/
def setlist_load (repo : PresetRepo) (s : SchedState) (name : String) :
    SchedState × SetlistResult :=
  match getSetlist s.setlistStore name with
  | none => (s, .errSetlistNotFound name)
  | some setlist =>
    let missing := setlist.chapters.foldl
      (fun acc ch => if (getPreset repo ch.shader).isNone then acc ++ [ch.shader] else acc) []
    if 0 < missing.length then
      (s, .errMissingPresets missing)
    else
      let s1 := { s with
        activeSetlist := some setlist
        currentChapterIndex := 0
        isPaused := false
        pauseOffset := 0 }
      let s2 := clearPlayback s1
      ({ s2 with playback :=
          ⟨false, some setlist.name, 0, setlist.chapters.length, none⟩ }, .ok)

/-- setlist-tools.ts setlist_play: error when nothing is loaded; otherwise
clear the paused flag, record playbackStartedAt, mark playback active, emit
the current chapter composite and schedule the next transition. The pending
timer is NOT cancelled first. -/
def setlist_play (repo : PresetRepo) (s : SchedState) (now : ℚ) :
    SchedState × List Msg × SetlistResult :=
  match s.activeSetlist with
  | none => (s, [], .errNoSetlist)
  | some setlist =>
    let s1 := { s with
      isPaused := false
      playbackStartedAt := some now
      playback := { s.playback with active := true, startedAt := some now } }
    let pr := pushChapter repo (setlist.chapters.getD s1.currentChapterIndex defChapter)
      s1.currentChapterIndex setlist.chapters.length
    let s2 := match pr.shaderId with
      | some sid => { s1 with currentShaderId := some sid }
      | none => s1
    (scheduleNextChapter s2 now, pr.msgs, .ok)

/-- setlist-tools.ts setlist_pause: error when nothing is loaded, a benign
already_paused result when paused; otherwise set the paused flag, cancel the
tracked timer, add elapsed play time to pauseOffset (the source guards with JS
truthiness, so a started-at of exactly 0 is skipped like null) and mark
playback inactive. -/
def setlist_pause (s : SchedState) (now : ℚ) : SchedState × SetlistResult :=
  match s.activeSetlist with
  | none => (s, .errNoSetlist)
  | some _ =>
    if s.isPaused then (s, .alreadyPaused)
    else
      let s1 := clearPlayback { s with isPaused := true }
      let s2 := match s1.playbackStartedAt with
        | some t0 => if t0 = 0 then s1 else { s1 with pauseOffset := s1.pauseOffset + (now - t0) }
        | none => s1
      ({ s2 with playback := { s2.playback with active := false } }, .ok)

/-- Argument forms of setlist-tools.ts setlist_jump. -/
inductive JumpArg
  | byIndex (i : ℤ)
  | byName (n : String)
  | byTime (t : ℚ)
deriving DecidableEq

/-- Resolve the jump target index exactly as setlist_jump does: bounds check
for an index, case-insensitive name match, or containing time interval. -/
def resolveJumpTarget (setlist : Setlist) : JumpArg → Option ℕ
  | .byIndex i =>
    if i < 0 ∨ (setlist.chapters.length : ℤ) ≤ i then none else some i.toNat
  | .byName n =>
    setlist.chapters.findIdx? fun c => c.name.toLower = n.toLower
  | .byTime t =>
    setlist.chapters.findIdx? fun c => decide (c.start_time ≤ t) && decide (t < c.end_time)

/-- setlist-tools.ts setlist_jump: resolve the target, cancel the tracked
timer, move the chapter index, zero pauseOffset, emit the target chapter
composite, and re-arm (with a fresh playbackStartedAt) only when not paused. -/
def setlist_jump (repo : PresetRepo) (s : SchedState) (now : ℚ) (arg : JumpArg) :
    SchedState × List Msg × SetlistResult :=
  match s.activeSetlist with
  | none => (s, [], .errNoSetlist)
  | some setlist =>
    match resolveJumpTarget setlist arg with
    | none => (s, [], .errChapterNotFound)
    | some targetIndex =>
      let s1 := clearPlayback s
      let s2 := { s1 with
        currentChapterIndex := targetIndex
        pauseOffset := 0
        playback := { s1.playback with chapterIndex := targetIndex } }
      let pr := pushChapter repo (setlist.chapters.getD targetIndex defChapter)
        targetIndex setlist.chapters.length
      let s3 := match pr.shaderId with
        | some sid => { s2 with currentShaderId := some sid }
        | none => s2
      let s4 :=
        if s3.isPaused then s3
        else scheduleNextChapter { s3 with playbackStartedAt := some now } now
      (s4, pr.msgs, .ok)

/-- Firing of an armed setTimeout (the callback inside scheduleNextChapter):
runs only if the timer is still armed; it advances to the captured nextIndex,
zeroes pauseOffset, publishes the chapter index, emits the chapter composite
and re-arms via scheduleNextChapter. A null activeSetlist at fire time would
crash on the non-null assertion in the source; it is unreachable while any
timer is armed, and modelled as emitting nothing further. -/
def fireAdvanceTimer (repo : PresetRepo) (s : SchedState) (t : ℕ) (now : ℚ) :
    SchedState × List Msg :=
  match s.armed.find? fun x => x.tid = t with
  | none => (s, [])
  | some info =>
    let s1 := { s with armed := s.armed.filter fun x => x.tid ≠ t }
    let s2 := { s1 with
      currentChapterIndex := info.nextIndex
      pauseOffset := 0
      playback := { s1.playback with chapterIndex := info.nextIndex } }
    match s2.activeSetlist with
    | none => (s2, [])
    | some setlist =>
      let pr := pushChapter repo (setlist.chapters.getD info.nextIndex defChapter)
        info.nextIndex setlist.chapters.length
      let s3 := match pr.shaderId with
        | some sid => { s2 with currentShaderId := some sid }
        | none => s2
      (scheduleNextChapter s3 now, pr.msgs)

/-- setlist-tools.ts setlist_delete: when the deleted name matches the active
setlist, cancel the tracked timer, drop the active setlist, clear the paused
flag and reset the published playback info, all before the store delete; then
remove the store entry, reporting whether it existed. -/
def setlist_delete (s : SchedState) (name : String) : SchedState × SetlistResult :=
  let s1 :=
    match s.activeSetlist with
    | some setlist =>
      if setlist.name = name then
        let c := clearPlayback s
        { c with
            activeSetlist := none
            isPaused := false
            playback := ⟨false, none, 0, 0, none⟩ }
      else s
    | none => s
  if (s1.setlistStore.find? fun p => p.1 = name).isSome then
    ({ s1 with setlistStore := s1.setlistStore.filter fun p => p.1 ≠ name }, .ok)
  else (s1, .errSetlistNotFound name)

/-- Scheduler operations a run is made of. -/
inductive SchedOp
  | load (name : String)
  | play
  | pause
  | jump (arg : JumpArg)
  | fire (t : ℕ)
  | delete (name : String)
deriving DecidableEq

/-- One scheduler step (state part). -/
def schedStep (repo : PresetRepo) (now : ℚ) (s : SchedState) : SchedOp → SchedState
  | .load name => (setlist_load repo s name).1
  | .play => (setlist_play repo s now).1
  | .pause => (setlist_pause s now).1
  | .jump arg => (setlist_jump repo s now arg).1
  | .fire t => (fireAdvanceTimer repo s t now).1
  | .delete name => (setlist_delete s name).1

/-- Run a timed sequence of scheduler operations. -/
def runSched (repo : PresetRepo) (s : SchedState) : List (ℚ × SchedOp) → SchedState
  | [] => s
  | (now, op) :: rest => runSched repo (schedStep repo now s op) rest

/-- audio-tools.ts audio_bind: remove the first existing binding for the same
target (findIndex plus splice), append the new binding, and broadcast an
audio_bind command unconditionally. -/
def audio_bind (bs : List AudioBinding) (b : AudioBinding) :
    List AudioBinding × List Msg :=
  let removed :=
    match bs.findIdx? fun x => x.target = b.target with
    | some i => bs.eraseIdx i
    | none => bs
  (removed ++ [b], [Msg.audio_bind b])

/-- audio-tools.ts audio_unbind: remove the first binding for the target and
broadcast an audio_unbind command, or report an error and broadcast nothing. -/
def audio_unbind (bs : List AudioBinding) (target : String) :
    List AudioBinding × List Msg :=
  match bs.findIdx? fun x => x.target = target with
  | some i => (bs.eraseIdx i, [Msg.audio_unbind target])
  | none => (bs, [])

/-- Binding registry operations. -/
inductive BindOp
  | bind (b : AudioBinding)
  | unbind (target : String)
deriving DecidableEq

/-- One binding registry step (state part). -/
def bindStep (bs : List AudioBinding) : BindOp → List AudioBinding
  | .bind b => (audio_bind bs b).1
  | .unbind target => (audio_unbind bs target).1

/-- Run a sequence of bind and unbind operations from the initial empty
registry (audio-tools.ts activeBindings starts empty). -/
def runBinds (ops : List BindOp) : List AudioBinding :=
  ops.foldl bindStep []

/-! ### C7: setBpm range validation -/

/-- C7: the claim says setBpm fails exactly when the value is outside 1 to
999, matching the RangeError message in the source and the input_set_bpm
schema bound of at least 1; but the source guard only rejects values at most
0 or above 999, so the fractional bpm 1/2, which is below 1, is accepted,
stored in the mirror and broadcast. This exhibits the code bug at the
concrete failing input setBpm(1/2). -/
theorem setBpm_accepts_below_one :
    setBpm initialServerState (1/2) =
      .ok ({ initialServerState with bpm := 1/2 }, [Msg.bpm_set (1/2)]) ∧
    ((1 : ℚ)/2) < 1 ∧ (0 : ℚ) < 1/2 := by
  refine ⟨?_, by norm_num, by norm_num⟩
  rw [setBpm, if_neg]
  push_neg
  constructor <;> norm_num

/-! ### C8: ext channel set and get -/

/-- C8: for channel indices 0 to 15, setExternalInput writes exactly the
addressed slot (visible at that index in the getServerState snapshot, every
other index unchanged) and broadcasts the matching ext_set message; for any
index outside 0 to 15 it throws a RangeError, and in that case no state is
produced, so the mirror is untouched. -/
theorem ext_channel_set_get (st : ServerState) (i : ℤ) (v : ℚ) :
    (0 ≤ i → i ≤ 15 →
      ∃ st₁ : ServerState,
        setExternalInput st i v = .ok (st₁, [Msg.ext_set i.toNat v]) ∧
        (getServerState st₁).extChannels[i.toNat]? = some v ∧
        (∀ j : ℕ, j ≠ i.toNat →
          (getServerState st₁).extChannels[j]? = (getServerState st).extChannels[j]?) ∧
        st₁.extXY = st.extXY ∧ st₁.bpm = st.bpm ∧
        st₁.audioBindings = st.audioBindings ∧ st₁.currentShaderId = st.currentShaderId) ∧
    ((i < 0 ∨ 15 < i) → setExternalInput st i v = .error (.extChannel i)) := by
  constructor
  · intro h0 h15
    have hcond : ¬(i < 0 ∨ i > 15) := by omega
    have hlt : i.toNat < 16 := by omega
    refine ⟨{ st with extChannels := fun j => if j = i.toNat then v else st.extChannels j },
      ?_, ?_, ?_, rfl, rfl, rfl, rfl⟩
    · rw [setExternalInput, if_neg hcond]
    · simp [getServerState, List.getElem?_map, List.getElem?_range hlt]
    · intro j hj
      by_cases hj16 : j < 16
      · simp [getServerState, List.getElem?_map, List.getElem?_range hj16, hj]
      · have hnone : ∀ f : ℕ → ℚ, ((List.range 16).map f)[j]? = none := by
          intro f
          exact List.getElem?_eq_none (by simp; omega)
        simp [getServerState, hnone]
  · intro h
    rw [setExternalInput, if_pos h]

/-- C8 witness: the theorem applied at channel 3 with value 7/10 from the
initial state, and at the out-of-range channel 16. -/
theorem ext_channel_set_get_witness :
    (∃ st₁ : ServerState,
      setExternalInput initialServerState 3 (7/10) = .ok (st₁, [Msg.ext_set 3 (7/10)]) ∧
      (getServerState st₁).extChannels[3]? = some (7/10)) ∧
    setExternalInput initialServerState 16 0 = .error (.extChannel 16) := by
  constructor
  · obtain ⟨st₁, h1, h2, -⟩ :=
      (ext_channel_set_get initialServerState 3 (7/10)).1 (by norm_num) (by norm_num)
    exact ⟨st₁, by simpa using h1, by simpa using h2⟩
  · exact (ext_channel_set_get initialServerState 16 0).2 (by norm_num)

/-! ### C1: OSC ingestion and the state mirror -/

/-- C1 counterexample: handling the OSC message /shade/ext/3 with argument
7/10 broadcasts an ext_set to the connected sessions but leaves the mirror
slot at 0, and the join-time sync of a session connecting afterwards does not
contain that value, contradicting the claim that ingestion writes the mirror
before broadcasting. -/
theorem osc_ext_skips_mirror :
    (handleOscExt ⟨initialServerState, []⟩ 3 [7/10]).mirror.extChannels 3 = 0 ∧
    Msg.ext_set 3 (7/10) ∈ (handleOscExt ⟨initialServerState, []⟩ 3 [7/10]).delivered ∧
    Msg.ext_set 3 (7/10) ∉
      sendSyncToClient (handleOscExt ⟨initialServerState, []⟩ 3 [7/10]).mirror := by
  refine ⟨rfl, by simp [handleOscExt], ?_⟩
  decide

/-- C1 amended: every fixed-scheme OSC handler (ext channel 0 to 15, XY
channel 0 to 3, bpm) broadcasts the decoded value to the currently connected
sessions and performs no State Mirror write, so the join-time sync sequence
of a later session is unchanged by the message. -/
theorem osc_fixed_scheme_broadcast_only (sys : OscSystem) (ch : ℕ) (args : List ℚ) :
    (ch < 16 →
      (handleOscExt sys ch args).mirror = sys.mirror ∧
      (handleOscExt sys ch args).delivered = sys.delivered ++ [Msg.ext_set ch (args.getD 0 0)] ∧
      sendSyncToClient (handleOscExt sys ch args).mirror = sendSyncToClient sys.mirror) ∧
    (ch < 4 →
      (handleOscXY sys ch args).mirror = sys.mirror ∧
      (handleOscXY sys ch args).delivered =
        sys.delivered ++ [Msg.ext_xy_set ch (args.getD 0 0) (args.getD 1 0)] ∧
      sendSyncToClient (handleOscXY sys ch args).mirror = sendSyncToClient sys.mirror) ∧
    ((handleOscBpm sys args).mirror = sys.mirror ∧
      (handleOscBpm sys args).delivered = sys.delivered ++ [Msg.bpm_set (args.getD 0 120)] ∧
      sendSyncToClient (handleOscBpm sys args).mirror = sendSyncToClient sys.mirror) :=
  ⟨fun _ => ⟨rfl, rfl, rfl⟩, fun _ => ⟨rfl, rfl, rfl⟩, rfl, rfl, rfl⟩

/-- C1 amended witness: the amended theorem applied at channel 3 with
argument list [7/10] on the freshly started system. -/
theorem osc_fixed_scheme_broadcast_only_witness :
    (handleOscExt ⟨initialServerState, []⟩ 3 [7/10]).mirror = initialServerState ∧
    (handleOscExt ⟨initialServerState, []⟩ 3 [7/10]).delivered = [Msg.ext_set 3 (7/10)] := by
  have h := (osc_fixed_scheme_broadcast_only ⟨initialServerState, []⟩ 3 [7/10]).1
    (by norm_num)
  exact ⟨h.1, by simpa using h.2.1⟩

/-! ### C2: chapter emission with a missing shader preset -/

/-- Binding used by the demonstration chapter. -/
def demoBinding : AudioBinding := ⟨"bass", "u_param1", 1, 0, 4/5⟩

/-- Chapter referencing a shader preset that is absent from the repository,
with params, palette and audio bindings present. -/
def demoChapter : SetlistChapter :=
  ⟨"Intro", "missing-shader", 0, 2, Transition.cut, 1,
   some [("u_param1", 1/2)], some blackPalette, some [demoBinding], none⟩

/-- C2 counterexample: when the shader preset of a chapter cannot be
resolved, pushChapter emits nothing at all; in particular the param, palette
and chapter-info messages the claim requires are absent. -/
theorem pushChapter_missing_skips_all :
    pushChapter [] demoChapter 0 3 = ⟨[], [], none⟩ ∧
    Msg.chapter_info "Intro" 0 3 ∉ (pushChapter [] demoChapter 0 3).msgs ∧
    Msg.param_set "u_param1" (1/2) ∉ (pushChapter [] demoChapter 0 3).msgs ∧
    Msg.palette_set blackPalette ∉ (pushChapter [] demoChapter 0 3).msgs ∧
    Msg.audio_bind demoBinding ∉ (pushChapter [] demoChapter 0 3).msgs := by
  refine ⟨rfl, ?_, ?_, ?_, ?_⟩ <;> decide

/-- C2 amended: when chapter emission fails to resolve the shader name in the
preset repository, the source logs and returns early, so the entire composite
emission is skipped: no message of any kind is broadcast, no delayed push is
armed, and the current shader id is not updated. -/
theorem pushChapter_missing_emits_nothing (repo : PresetRepo) (chapter : SetlistChapter)
    (index total : ℕ) (h : getPreset repo chapter.shader = none) :
    pushChapter repo chapter index total = ⟨[], [], none⟩ := by
  rw [pushChapter, h]

/-- C2 amended witness: the amended theorem applied to the demonstration
chapter over the empty repository. -/
theorem pushChapter_missing_emits_nothing_witness :
    pushChapter [] demoChapter 0 3 = ⟨[], [], none⟩ :=
  pushChapter_missing_emits_nothing [] demoChapter 0 3 rfl

/-! ### C6: join-time synchronization sequence -/

/-- Membership characterization of the shader part of the sync sequence. -/
theorem mem_shaderSyncMsgs (st : ServerState) (m : Msg) :
    m ∈ shaderSyncMsgs st ↔
    ∃ code sid, st.currentShaderCode = some code ∧ st.currentShaderId = some sid ∧
      code ≠ "" ∧ sid ≠ "" ∧ m = Msg.shader_push code sid := by
  cases hc : st.currentShaderCode with
  | none => simp [shaderSyncMsgs, hc]
  | some c =>
    cases hi : st.currentShaderId with
    | none => simp [shaderSyncMsgs, hc, hi]
    | some s =>
      by_cases h : c ≠ "" ∧ s ≠ ""
      · simp only [shaderSyncMsgs, hc, hi, if_pos h, List.mem_singleton]
        constructor
        · rintro rfl
          exact ⟨c, s, rfl, rfl, h.1, h.2, rfl⟩
        · rintro ⟨code, sid, hcode, hsid, -, -, rfl⟩
          cases hcode
          cases hsid
          rfl
      · simp only [shaderSyncMsgs, hc, hi, if_neg h, List.not_mem_nil, false_iff]
        rintro ⟨code, sid, hcode, hsid, hc1, hs1, rfl⟩
        cases hcode
        cases hsid
        exact h ⟨hc1, hs1⟩

/-- Decomposition of the sync sequence into its five segments. -/
theorem mem_sendSyncToClient (st : ServerState) (m : Msg) :
    m ∈ sendSyncToClient st ↔
      ((∃ a, a < 16 ∧ st.extChannels a ≠ 0 ∧ Msg.ext_set a (st.extChannels a) = m) ∨
       (∃ a, a < 4 ∧ ((st.extXY a).1 ≠ 0 ∨ (st.extXY a).2 ≠ 0) ∧
          Msg.ext_xy_set a (st.extXY a).1 (st.extXY a).2 = m) ∨
       m = Msg.bpm_set st.bpm ∨
       m ∈ shaderSyncMsgs st ∨
       m = Msg.palette_set st.currentPalette ∨
       m = Msg.get_state) := by
  simp only [sendSyncToClient, List.mem_append, List.mem_filterMap, List.mem_range,
    Option.ite_none_right_eq_some, Option.some_inj, List.mem_singleton, List.mem_cons,
    List.not_mem_nil, or_false, or_assoc]

/-- C6: the join-time sync sequence contains an ext_set exactly for the
channels whose mirrored value is nonzero (carrying that value), an ext_xy_set
exactly for the XY pairs differing from (0,0), a bpm_set carrying the current
bpm, a shader_push exactly when a current shader is mirrored (both fields
present and truthy), a palette_set with the current palette, and ends with
the get_state status request. -/
theorem sync_on_connect_spec (st : ServerState) :
    (∀ i v, Msg.ext_set i v ∈ sendSyncToClient st ↔
       i < 16 ∧ st.extChannels i = v ∧ v ≠ 0) ∧
    (∀ i x y, Msg.ext_xy_set i x y ∈ sendSyncToClient st ↔
       i < 4 ∧ st.extXY i = (x, y) ∧ (x ≠ 0 ∨ y ≠ 0)) ∧
    (∀ b, Msg.bpm_set b ∈ sendSyncToClient st ↔ b = st.bpm) ∧
    (∀ code sid, Msg.shader_push code sid ∈ sendSyncToClient st ↔
       st.currentShaderCode = some code ∧ st.currentShaderId = some sid ∧
       code ≠ "" ∧ sid ≠ "") ∧
    (∀ colors, Msg.palette_set colors ∈ sendSyncToClient st ↔ colors = st.currentPalette) ∧
    Msg.get_state ∈ sendSyncToClient st ∧
    (sendSyncToClient st).getLast? = some Msg.get_state := by
  refine ⟨?_, ?_, ?_, ?_, ?_, ?_, ?_⟩
  · intro i v
    rw [mem_sendSyncToClient]
    constructor
    · rintro (⟨a, ha, hne, heq⟩ | ⟨a, ha, hne, heq⟩ | h | h | h | h)
      · obtain ⟨rfl, rfl⟩ : a = i ∧ st.extChannels a = v := by
          cases heq
          exact ⟨rfl, rfl⟩
        exact ⟨ha, rfl, hne⟩
      · cases heq
      · cases h
      · rcases (mem_shaderSyncMsgs st _).1 h with ⟨code, sid, -, -, -, -, h⟩
        cases h
      · cases h
      · cases h
    · rintro ⟨hi, rfl, hv⟩
      exact Or.inl ⟨i, hi, hv, rfl⟩
  · intro i x y
    rw [mem_sendSyncToClient]
    constructor
    · rintro (⟨a, ha, hne, heq⟩ | ⟨a, ha, hne, heq⟩ | h | h | h | h)
      · cases heq
      · obtain ⟨rfl, h1, h2⟩ : a = i ∧ (st.extXY a).1 = x ∧ (st.extXY a).2 = y := by
          cases heq
          exact ⟨rfl, rfl, rfl⟩
        rw [← h1, ← h2]
        exact ⟨ha, by simp, by simpa [h1, h2] using hne⟩
      · cases h
      · rcases (mem_shaderSyncMsgs st _).1 h with ⟨code, sid, -, -, -, -, h⟩
        cases h
      · cases h
      · cases h
    · rintro ⟨hi, hxy, hv⟩
      refine Or.inr (Or.inl ⟨i, hi, ?_, ?_⟩)
      · rw [hxy]
        exact hv
      · rw [hxy]
  · intro b
    rw [mem_sendSyncToClient]
    constructor
    · rintro (⟨a, ha, hne, heq⟩ | ⟨a, ha, hne, heq⟩ | h | h | h | h)
      · cases heq
      · cases heq
      · cases h
        rfl
      · rcases (mem_shaderSyncMsgs st _).1 h with ⟨code, sid, -, -, -, -, h⟩
        cases h
      · cases h
      · cases h
    · rintro rfl
      exact Or.inr (Or.inr (Or.inl rfl))
  · intro code sid
    rw [mem_sendSyncToClient]
    constructor
    · rintro (⟨a, ha, hne, heq⟩ | ⟨a, ha, hne, heq⟩ | h | h | h | h)
      · cases heq
      · cases heq
      · cases h
      · rcases (mem_shaderSyncMsgs st _).1 h with ⟨c, s, hc, hs, h1, h2, heq⟩
        cases heq
        exact ⟨hc, hs, h1, h2⟩
      · cases h
      · cases h
    · rintro ⟨hc, hs, h1, h2⟩
      exact Or.inr (Or.inr (Or.inr (Or.inl
        ((mem_shaderSyncMsgs st _).2 ⟨code, sid, hc, hs, h1, h2, rfl⟩))))
  · intro colors
    rw [mem_sendSyncToClient]
    constructor
    · rintro (⟨a, ha, hne, heq⟩ | ⟨a, ha, hne, heq⟩ | h | h | h | h)
      · cases heq
      · cases heq
      · cases h
      · rcases (mem_shaderSyncMsgs st _).1 h with ⟨c, s, -, -, -, -, h⟩
        cases h
      · cases h
        rfl
      · cases h
    · rintro rfl
      exact Or.inr (Or.inr (Or.inr (Or.inr (Or.inl rfl))))
  · rw [mem_sendSyncToClient]
    exact Or.inr (Or.inr (Or.inr (Or.inr (Or.inr rfl))))
  · rw [sendSyncToClient]
    simp [List.getLast?_append, List.getLast?_cons]

/-! ### C9: audio binding registry uniqueness -/

/-- Removing the first element satisfying p (findIndex plus splice) removes
every occurrence when at most one element satisfies p. -/
theorem findIdx_erase_eq_filter {α : Type} (p : α → Bool) (l : List α)
    (h : (l.filter p).length ≤ 1) :
    (match l.findIdx? p with
     | some i => l.eraseIdx i
     | none => l) = l.filter fun a => !(p a) := by
  induction l with
  | nil => rfl
  | cons a t ih =>
    by_cases ha : p a
    · rw [List.findIdx?_cons, if_pos ha]
      simp only [List.eraseIdx_cons_zero, List.filter_cons, ha]
      have ht : t.filter p = [] := by
        rw [List.filter_cons, if_pos ha] at h
        simp only [List.length_cons] at h
        exact List.length_eq_zero.1 (by omega)
      have hnone : ∀ x ∈ t, ¬ p x := by
        intro x hx hpx
        have : x ∈ t.filter p := List.mem_filter.2 ⟨hx, hpx⟩
        simp [ht] at this
      simp only [Bool.not_eq_true']
      exact (List.filter_eq_self.2 fun x hx => by simp [hnone x hx]).symm
    · have ha1 : p a = false := by simpa using ha
      rw [List.findIdx?_cons, if_neg (by simp [ha1]), List.findIdx?_succ]
      have hfl : (t.filter p).length ≤ 1 := by
        rw [List.filter_cons, if_neg (by simp [ha1])] at h
        exact h
      cases hf : List.findIdx? p t with
      | none =>
        simp only [hf, Option.map_none']
        have hall : ∀ x ∈ t, p x = false := List.findIdx?_eq_none_iff.1 hf
        rw [List.filter_cons, if_pos (by simp [ha1])]
        rw [List.filter_eq_self.2 fun x hx => by simp [hall x hx]]
      | some i =>
        simp only [hf, Option.map_some']
        rw [List.eraseIdx_cons_succ]
        rw [List.filter_cons, if_pos (by simp [ha1])]
        refine congrArg (fun l => a :: l) ?_
        show t.eraseIdx i = _
        have h3 := ih hfl
        rw [hf] at h3
        exact h3

/-- Pairwise distinctness of binding targets. -/
def TargetsUnique (bs : List AudioBinding) : Prop :=
  bs.Pairwise fun a b => a.target ≠ b.target

/-- With pairwise distinct targets, at most one binding matches a target. -/
theorem targetsUnique_filter_le_one (bs : List AudioBinding) (h : TargetsUnique bs)
    (tgt : String) : (bs.filter fun x => x.target = tgt).length ≤ 1 := by
  induction bs with
  | nil => simp
  | cons a t ih =>
    rcases List.pairwise_cons.1 h with ⟨ha, ht⟩
    by_cases hat : a.target = tgt
    · rw [List.filter_cons, if_pos (by simp [hat])]
      have : t.filter (fun x => x.target = tgt) = [] := by
        rw [List.filter_eq_nil_iff]
        intro x hx
        simp only [decide_eq_true_eq]
        intro hxt
        exact ha x hx (hat ▸ hxt ▸ rfl)
      simp [this]
    · rw [List.filter_cons, if_neg (by simp [hat])]
      exact ih ht

/-- The removal phase of audio_bind equals filtering the target out, under
uniqueness. -/
theorem audio_bind_removed_eq (bs : List AudioBinding) (b : AudioBinding)
    (h : TargetsUnique bs) :
    (match bs.findIdx? fun x => x.target = b.target with
     | some i => bs.eraseIdx i
     | none => bs) = bs.filter fun x => !(decide (x.target = b.target)) :=
  findIdx_erase_eq_filter _ bs (targetsUnique_filter_le_one bs h b.target)

/-- Binding a target preserves pairwise distinct targets. -/
theorem audio_bind_preserves_unique (bs : List AudioBinding) (b : AudioBinding)
    (h : TargetsUnique bs) : TargetsUnique (audio_bind bs b).1 := by
  show ((match bs.findIdx? fun x => x.target = b.target with
         | some i => bs.eraseIdx i
         | none => bs) ++ [b]).Pairwise _
  rw [audio_bind_removed_eq bs b h]
  rw [List.pairwise_append]
  refine ⟨h.filter _, List.pairwise_singleton _ _, ?_⟩
  intro x hx c hc
  rcases List.mem_filter.1 hx with ⟨-, hxt⟩
  rcases List.mem_singleton.1 hc with rfl
  simpa using hxt

/-- Unbinding preserves pairwise distinct targets. -/
theorem audio_unbind_preserves_unique (bs : List AudioBinding) (tgt : String)
    (h : TargetsUnique bs) : TargetsUnique (audio_unbind bs tgt).1 := by
  unfold audio_unbind
  cases hf : bs.findIdx? fun x => x.target = tgt with
  | none => exact h
  | some i => exact List.Pairwise.sublist (List.eraseIdx_sublist bs i) h

/-- Every state reachable by bind and unbind operations from a state with
pairwise distinct targets keeps them pairwise distinct. -/
theorem foldl_bindStep_unique (ops : List BindOp) :
    ∀ bs, TargetsUnique bs → TargetsUnique (ops.foldl bindStep bs) := by
  induction ops with
  | nil => exact fun bs h => h
  | cons op rest ih =>
    intro bs h
    refine ih _ ?_
    cases op with
    | bind b => exact audio_bind_preserves_unique bs b h
    | unbind tgt => exact audio_unbind_preserves_unique bs tgt h

/-- C9: after any sequence of bind and unbind operations the registry holds
at most one binding per target (targets are pairwise distinct); binding any
target on such a registry broadcasts exactly one audio_bind command and
leaves the new binding as the unique entry for its target, discarding any
previous one. -/
theorem audio_bind_unique_target (ops : List BindOp) (b : AudioBinding) :
    ((runBinds ops).map fun x => x.target).Nodup ∧
    (audio_bind (runBinds ops) b).2 = [Msg.audio_bind b] ∧
    ((audio_bind (runBinds ops) b).1.filter fun x => x.target = b.target) = [b] := by
  have hu : TargetsUnique (runBinds ops) :=
    foldl_bindStep_unique ops [] (List.Pairwise.nil)
  refine ⟨?_, rfl, ?_⟩
  · show ((runBinds ops).map fun x => x.target).Pairwise (· ≠ ·)
    rw [List.pairwise_map]
    exact hu
  · show ((match (runBinds ops).findIdx? fun x => x.target = b.target with
           | some i => (runBinds ops).eraseIdx i
           | none => runBinds ops) ++ [b]).filter _ = [b]
    rw [audio_bind_removed_eq _ b hu, List.filter_append]
    have h1 : ((runBinds ops).filter fun x => !(decide (x.target = b.target))).filter
        (fun x => decide (x.target = b.target)) = [] := by
      rw [List.filter_eq_nil_iff]
      intro x hx
      rcases List.mem_filter.1 hx with ⟨-, hxt⟩
      simpa using hxt
    rw [h1]
    simp

/-! ### Helper lemmas about clearPlayback -/

/-- Timer tracking is always cleared by clearPlayback. -/
theorem clearPlayback_playbackTimer (s : SchedState) :
    (clearPlayback s).playbackTimer = none := by
  cases h : s.playbackTimer <;> simp [clearPlayback, h]

/-- When every armed timer is the tracked one, clearPlayback cancels all. -/
theorem clearPlayback_armed_of_tracked (s : SchedState)
    (h : ∀ t ∈ s.armed, s.playbackTimer = some t.tid) :
    (clearPlayback s).armed = [] := by
  cases hp : s.playbackTimer with
  | none =>
    simp only [clearPlayback, hp]
    refine List.eq_nil_iff_forall_not_mem.2 fun t ht => ?_
    have := h t ht
    rw [hp] at this
    cases this
  | some p =>
    simp only [clearPlayback, hp]
    rw [List.filter_eq_nil_iff]
    intro t ht
    have h2 := h t ht
    rw [hp] at h2
    obtain rfl : p = t.tid := Option.some.inj h2
    simp

/-- Fields clearPlayback does not touch. -/
theorem clearPlayback_fields (s : SchedState) :
    (clearPlayback s).activeSetlist = s.activeSetlist ∧
    (clearPlayback s).playbackStartedAt = s.playbackStartedAt ∧
    (clearPlayback s).currentChapterIndex = s.currentChapterIndex ∧
    (clearPlayback s).isPaused = s.isPaused ∧
    (clearPlayback s).pauseOffset = s.pauseOffset ∧
    (clearPlayback s).nextTimerId = s.nextTimerId ∧
    (clearPlayback s).playback = s.playback ∧
    (clearPlayback s).currentShaderId = s.currentShaderId ∧
    (clearPlayback s).setlistStore = s.setlistStore := by
  cases h : s.playbackTimer <;> simp [clearPlayback, h]

/-! ### C5: setlist loading validation -/

/-- The missing-shader accumulator loop of setlist_load is the filtered map
of unresolved chapter shaders. -/
theorem load_missing_foldl (repo : PresetRepo) (chs : List SetlistChapter)
    (acc : List String) :
    chs.foldl (fun acc ch =>
        if (getPreset repo ch.shader).isNone then acc ++ [ch.shader] else acc) acc
      = acc ++ ((chs.filter fun ch => (getPreset repo ch.shader).isNone).map
          fun ch => ch.shader) := by
  induction chs generalizing acc with
  | nil => simp
  | cons c t ih =>
    by_cases hc : (getPreset repo c.shader).isNone
    · rw [List.foldl_cons, if_pos hc, ih, List.filter_cons, if_pos (by simp [hc])]
      simp
    · rw [List.foldl_cons, if_neg hc, ih, List.filter_cons, if_neg (by simp_all)]

/-- C5: loading a setlist whose chapters reference absent shader presets
fails with an error listing every unresolved name and leaves the scheduler
state unchanged; loading an unknown setlist name also leaves it unchanged;
on success the setlist is armed with chapter index 0, pause state cleared,
the tracked timer cancelled, and the playback info reset. -/
theorem setlist_load_spec (repo : PresetRepo) (s : SchedState) (name : String) :
    (getSetlist s.setlistStore name = none →
       setlist_load repo s name = (s, .errSetlistNotFound name)) ∧
    (∀ sl, getSetlist s.setlistStore name = some sl →
      ((∃ ch ∈ sl.chapters, getPreset repo ch.shader = none) →
        ∃ missing, missing ≠ [] ∧
          setlist_load repo s name = (s, .errMissingPresets missing) ∧
          (∀ ch ∈ sl.chapters, getPreset repo ch.shader = none → ch.shader ∈ missing) ∧
          (∀ n ∈ missing, getPreset repo n = none)) ∧
      ((∀ ch ∈ sl.chapters, getPreset repo ch.shader ≠ none) →
        ∃ s1, setlist_load repo s name = (s1, .ok) ∧
          s1.activeSetlist = some sl ∧
          s1.currentChapterIndex = 0 ∧
          s1.isPaused = false ∧
          s1.pauseOffset = 0 ∧
          s1.playbackTimer = none ∧
          ((∀ t ∈ s.armed, s.playbackTimer = some t.tid) → s1.armed = []) ∧
          s1.playback = ⟨false, some sl.name, 0, sl.chapters.length, none⟩ ∧
          s1.setlistStore = s.setlistStore)) := by
  constructor
  · intro h
    simp [setlist_load, h]
  · intro sl hsl
    constructor
    · intro ⟨ch, hch, hmiss⟩
      have hm : ch ∈ sl.chapters.filter fun ch => (getPreset repo ch.shader).isNone :=
        List.mem_filter.2 ⟨hch, by simp [hmiss]⟩
      refine ⟨(sl.chapters.filter fun ch => (getPreset repo ch.shader).isNone).map
          (fun ch => ch.shader), ?_, ?_, ?_, ?_⟩
      · intro hnil
        rw [List.map_eq_nil_iff] at hnil
        rw [hnil] at hm
        cases hm
      · have hpos : 0 < ((sl.chapters.filter fun ch =>
            (getPreset repo ch.shader).isNone).map fun ch => ch.shader).length := by
          simp only [List.length_map]
          exact List.length_pos.2 (List.ne_nil_of_mem hm)
        simp only [setlist_load, hsl, load_missing_foldl, List.nil_append]
        rw [if_pos hpos]
      · intro c hc hcm
        exact List.mem_map.2 ⟨c, List.mem_filter.2 ⟨hc, by simp [hcm]⟩, rfl⟩
      · intro n hn
        rcases List.mem_map.1 hn with ⟨c, hc, rfl⟩
        rcases List.mem_filter.1 hc with ⟨-, hmiss2⟩
        simpa [Option.isNone_iff_eq_none] using hmiss2
    · intro hall
      have hfl : (sl.chapters.filter fun ch => (getPreset repo ch.shader).isNone) = [] := by
        rw [List.filter_eq_nil_iff]
        intro c hc
        simp [Option.isNone_iff_eq_none, hall c hc]
      have hres : setlist_load repo s name =
          ({ (clearPlayback
                { s with
                    activeSetlist := some sl
                    currentChapterIndex := 0
                    isPaused := false
                    pauseOffset := 0 }) with
             playback := ⟨false, some sl.name, 0, sl.chapters.length, none⟩ }, .ok) := by
        simp only [setlist_load, hsl, load_missing_foldl, List.nil_append, hfl,
          List.map_nil, List.length_nil]
        rw [if_neg (by simp)]
      refine ⟨_, hres, ?_, ?_, ?_, ?_, ?_, ?_, rfl, ?_⟩
      · show (clearPlayback _).activeSetlist = some sl
        rw [(clearPlayback_fields _).1]
      · show (clearPlayback _).currentChapterIndex = 0
        rw [(clearPlayback_fields _).2.2.1]
      · show (clearPlayback _).isPaused = false
        rw [(clearPlayback_fields _).2.2.2.1]
      · show (clearPlayback _).pauseOffset = 0
        rw [(clearPlayback_fields _).2.2.2.2.1]
      · exact clearPlayback_playbackTimer _
      · intro htr
        exact clearPlayback_armed_of_tracked _ htr
      · show (clearPlayback _).setlistStore = s.setlistStore
        rw [(clearPlayback_fields _).2.2.2.2.2.2.2.2]

/-- Chapter with a cut transition and no optional payload, for scenarios. -/
def mkChapter (n sh : String) (t0 t1 : ℚ) : SetlistChapter :=
  ⟨n, sh, t0, t1, Transition.cut, 1, none, none, none, none⟩

/-- Preset present in the demonstration repository. -/
def shPreset : Preset := ⟨"sh-id", "sh-code"⟩

/-- Demonstration repository holding one preset named sh. -/
def demoRepo : PresetRepo := [("sh", shPreset)]

/-- Three-chapter setlist with 2 second chapters, all shaders resolvable. -/
def tripSetlist : Setlist :=
  ⟨"Trip", [mkChapter "c1" "sh" 0 2, mkChapter "c2" "sh" 2 4, mkChapter "c3" "sh" 4 6]⟩

/-- Setlist whose chapters 2 and 3 reference absent shader presets. -/
def badSetlist : Setlist :=
  ⟨"Bad", [mkChapter "b1" "sh" 0 2, mkChapter "b2" "ghost-a" 2 4, mkChapter "b3" "ghost-b" 4 6]⟩

/-- Demonstration setlist store. -/
def demoStore : SetlistStore := [("Trip", tripSetlist), ("Bad", badSetlist)]

/-- C5 witness: the theorem applied to the store above; loading Bad fails
reporting both ghost names with the state unchanged, loading Trip succeeds
and arms it. -/
theorem setlist_load_spec_witness :
    (∃ missing, missing ≠ [] ∧
       setlist_load demoRepo (initialSched demoStore) "Bad" =
         (initialSched demoStore, .errMissingPresets missing) ∧
       "ghost-a" ∈ missing ∧ "ghost-b" ∈ missing) ∧
    (∃ s1, setlist_load demoRepo (initialSched demoStore) "Trip" = (s1, .ok) ∧
       s1.activeSetlist = some tripSetlist ∧ s1.armed = []) := by
  constructor
  · obtain ⟨missing, hne, heq, hmem, -⟩ :=
      ((setlist_load_spec demoRepo (initialSched demoStore) "Bad").2 badSetlist
        (by decide)).1 ⟨mkChapter "b2" "ghost-a" 2 4, by decide, by decide⟩
    refine ⟨missing, hne, heq, ?_, ?_⟩
    · exact hmem (mkChapter "b2" "ghost-a" 2 4) (by decide) (by decide)
    · exact hmem (mkChapter "b3" "ghost-b" 4 6) (by decide) (by decide)
  · obtain ⟨s1, heq, h1, -, -, -, -, harm, -, -⟩ :=
      ((setlist_load_spec demoRepo (initialSched demoStore) "Trip").2 tripSetlist
        (by decide)).2 (by decide)
    exact ⟨s1, heq, h1, harm (by simp [initialSched])⟩

/-! ### C4: pause and resume time accounting -/

/-- Computation of setlist_pause in the playing, unpaused case with a JS
truthy playbackStartedAt. -/
theorem setlist_pause_eq (s : SchedState) (sl : Setlist) (t0 now : ℚ)
    (hact : s.activeSetlist = some sl) (hpause : s.isPaused = false)
    (hstart : s.playbackStartedAt = some t0) (hne0 : ¬ t0 = 0) :
    setlist_pause s now =
      ({ (clearPlayback { s with isPaused := true }) with
          pauseOffset := (clearPlayback { s with isPaused := true }).pauseOffset + (now - t0)
          playback :=
            { (clearPlayback { s with isPaused := true }).playback with active := false } },
       .ok) := by
  cases hpt : s.playbackTimer with
  | none =>
    simp only [setlist_pause, hact, clearPlayback, hpt]
    rw [if_neg (by simp [hpause])]
    simp [hstart, hne0]
  | some p =>
    simp only [setlist_pause, hact, clearPlayback, hpt]
    rw [if_neg (by simp [hpause])]
    simp [hstart, hne0]

/-- Computation of the armed timer and the emitted messages of setlist_play
when a setlist is loaded and a next chapter exists. -/
theorem setlist_play_arms (repo : PresetRepo) (s : SchedState) (sl : Setlist) (now : ℚ)
    (hact : s.activeSetlist = some sl)
    (hnext : s.currentChapterIndex + 1 < sl.chapters.length) :
    (setlist_play repo s now).1.armed = s.armed ++
      [⟨s.nextTimerId,
        now + max 0 ((((sl.chapters.getD s.currentChapterIndex defChapter).end_time -
          (sl.chapters.getD s.currentChapterIndex defChapter).start_time) * 1000) -
          s.pauseOffset),
        s.currentChapterIndex + 1⟩] ∧
    (setlist_play repo s now).2.1 =
      (pushChapter repo (sl.chapters.getD s.currentChapterIndex defChapter)
        s.currentChapterIndex sl.chapters.length).msgs := by
  have hnle : ¬ sl.chapters.length ≤ s.currentChapterIndex + 1 := by omega
  cases hpr : (pushChapter repo (sl.chapters.getD s.currentChapterIndex defChapter)
      s.currentChapterIndex sl.chapters.length).shaderId with
  | none =>
    constructor <;>
      simp only [setlist_play, hact, scheduleNextChapter, hpr, hnle, if_false, ite_false,
        ite_eq_right_iff] <;>
      simp [hpr]
  | some sid =>
    constructor <;>
      simp only [setlist_play, hact, scheduleNextChapter, hpr, hnle, if_false, ite_false,
        ite_eq_right_iff] <;>
      simp [hpr]

/-- Scheduler state after load Trip, play at t = 1000000 ms, pause at
t = 1001000 ms (1 second into chapter 1). -/
def c4Paused : SchedState :=
  runSched demoRepo (initialSched demoStore)
    [(0, SchedOp.load "Trip"), (1000000, SchedOp.play), (1001000, SchedOp.pause)]

/-- Scheduler state after resuming at t = 1003500 ms. -/
def c4Resumed : SchedState := schedStep demoRepo 1003500 c4Paused SchedOp.play

/-- Scheduler state after a second pause at t = 1004600 ms. -/
def c4PausedAgain : SchedState := schedStep demoRepo 1004600 c4Resumed SchedOp.pause

/-- Scheduler state after resuming again at t = 1005000 ms. -/
def c4ResumedAgain : SchedState := schedStep demoRepo 1005000 c4PausedAgain SchedOp.play

/-- C4: pause cancels the pending timer and adds now minus playbackStartedAt
to the accumulated offset; a subsequent play re-emits the current chapter
composite and, when a next chapter exists, arms the advance timer for the
full chapter duration minus the accumulated offset, floored at 0. On the
2-second-chapter setlist, pausing 1 second in and resuming at t = 3.5 s
arms the advance at t = 4.5 s; when the offset exceeds the duration the
timer is armed with zero delay. -/
theorem pause_resume_accounting :
    (∀ (s : SchedState) (sl : Setlist) (t0 now : ℚ),
       s.activeSetlist = some sl → s.isPaused = false →
       s.playbackStartedAt = some t0 → ¬ t0 = 0 →
       ((setlist_pause s now).1.pauseOffset = s.pauseOffset + (now - t0) ∧
        (setlist_pause s now).1.isPaused = true ∧
        (setlist_pause s now).1.playbackTimer = none ∧
        ((∀ t ∈ s.armed, s.playbackTimer = some t.tid) →
          (setlist_pause s now).1.armed = []))) ∧
    (∀ (repo : PresetRepo) (s : SchedState) (sl : Setlist) (now : ℚ),
       s.activeSetlist = some sl → s.currentChapterIndex + 1 < sl.chapters.length →
       ((setlist_play repo s now).1.armed = s.armed ++
          [⟨s.nextTimerId,
            now + max 0 ((((sl.chapters.getD s.currentChapterIndex defChapter).end_time -
              (sl.chapters.getD s.currentChapterIndex defChapter).start_time) * 1000) -
              s.pauseOffset),
            s.currentChapterIndex + 1⟩] ∧
        (setlist_play repo s now).2.1 =
          (pushChapter repo (sl.chapters.getD s.currentChapterIndex defChapter)
            s.currentChapterIndex sl.chapters.length).msgs)) ∧
    (c4Paused.pauseOffset = 1000 ∧ c4Paused.armed = [] ∧ c4Paused.isPaused = true ∧
     c4Resumed.armed = [⟨1, 1004500, 1⟩] ∧
     (setlist_play demoRepo c4Paused 1003500).2.1 =
       (pushChapter demoRepo (mkChapter "c1" "sh" 0 2) 0 3).msgs ∧
     c4PausedAgain.pauseOffset = 2100 ∧
     c4ResumedAgain.armed = [⟨2, 1005000, 1⟩]) := by
  refine ⟨?_, ?_, ?_⟩
  · intro s sl t0 now hact hpause hstart hne0
    rw [setlist_pause_eq s sl t0 now hact hpause hstart hne0]
    refine ⟨?_, ?_, ?_, ?_⟩
    · show (clearPlayback _).pauseOffset + (now - t0) = s.pauseOffset + (now - t0)
      rw [(clearPlayback_fields _).2.2.2.2.1]
    · show (clearPlayback _).isPaused = true
      rw [(clearPlayback_fields _).2.2.2.1]
    · exact clearPlayback_playbackTimer _
    · intro htr
      exact clearPlayback_armed_of_tracked _ htr
  · intro repo s sl now hact hnext
    exact setlist_play_arms repo s sl now hact hnext
  · refine ⟨?_, ?_, ?_, ?_, ?_, ?_, ?_⟩ <;>
      norm_num [c4Paused, c4Resumed, c4PausedAgain, c4ResumedAgain, runSched, schedStep,
        setlist_play, setlist_pause, setlist_load, initialSched, demoStore, demoRepo,
        tripSetlist, badSetlist, mkChapter, defChapter, getSetlist, getPreset, shPreset,
        clearPlayback, scheduleNextChapter, pushChapter, List.find?, List.foldl, List.getD,
        List.filter, max_def]

/-- C4 witness: the generic parts of the theorem applied at the concrete
states of the scenario. -/
theorem pause_resume_accounting_witness :
    (setlist_pause c4Resumed 1004600).1.pauseOffset = c4Resumed.pauseOffset + 1100 ∧
    (setlist_play demoRepo c4Paused 1003500).1.armed = c4Paused.armed ++
      [⟨c4Paused.nextTimerId,
        1003500 + max 0 ((((tripSetlist.chapters.getD c4Paused.currentChapterIndex
            defChapter).end_time -
          (tripSetlist.chapters.getD c4Paused.currentChapterIndex defChapter).start_time) *
          1000) - c4Paused.pauseOffset),
        c4Paused.currentChapterIndex + 1⟩] := by
  constructor
  · have h := (pause_resume_accounting.1 c4Resumed tripSetlist 1003500 1004600
      (by decide) (by decide) (by decide) (by decide)).1
    rw [h]
    norm_num
  · exact (pause_resume_accounting.2.1 demoRepo c4Paused tripSetlist 1003500
      (by decide) (by decide)).1

/-! ### C10: deleting the active setlist -/

/-- C10: deleting the setlist whose name matches the active one resets the
scheduler regardless of the store outcome: the tracked timer is cancelled,
the active setlist becomes none, the paused flag is cleared and the published
playback info is reset to inactive with chapter index 0; deleting any other
name leaves every scheduler field untouched. -/
theorem setlist_delete_spec (s : SchedState) (name : String) :
    (∀ sl, s.activeSetlist = some sl → sl.name = name →
       ((setlist_delete s name).1.activeSetlist = none ∧
        (setlist_delete s name).1.isPaused = false ∧
        (setlist_delete s name).1.playbackTimer = none ∧
        (setlist_delete s name).1.playback = ⟨false, none, 0, 0, none⟩ ∧
        ((∀ t ∈ s.armed, s.playbackTimer = some t.tid) →
          (setlist_delete s name).1.armed = []))) ∧
    ((∀ sl, s.activeSetlist = some sl → sl.name ≠ name) →
       ((setlist_delete s name).1.activeSetlist = s.activeSetlist ∧
        (setlist_delete s name).1.isPaused = s.isPaused ∧
        (setlist_delete s name).1.playbackTimer = s.playbackTimer ∧
        (setlist_delete s name).1.playback = s.playback ∧
        (setlist_delete s name).1.armed = s.armed ∧
        (setlist_delete s name).1.currentChapterIndex = s.currentChapterIndex ∧
        (setlist_delete s name).1.pauseOffset = s.pauseOffset ∧
        (setlist_delete s name).1.playbackStartedAt = s.playbackStartedAt)) := by
  constructor
  · intro sl hact hname
    simp only [setlist_delete, hact, if_pos hname]
    split
    · refine ⟨rfl, rfl, clearPlayback_playbackTimer _, rfl, ?_⟩
      intro htr
      exact clearPlayback_armed_of_tracked _ htr
    · refine ⟨rfl, rfl, clearPlayback_playbackTimer _, rfl, ?_⟩
      intro htr
      exact clearPlayback_armed_of_tracked _ htr
  · intro hne
    cases hact : s.activeSetlist with
    | none =>
      simp only [setlist_delete, hact]
      split <;>
        first
          | exact ⟨rfl, rfl, rfl, rfl, rfl, rfl, rfl, rfl⟩
          | exact ⟨hact, rfl, rfl, rfl, rfl, rfl, rfl, rfl⟩
    | some sl =>
      simp only [setlist_delete, hact, if_neg (hne sl hact)]
      split <;>
        first
          | exact ⟨rfl, rfl, rfl, rfl, rfl, rfl, rfl, rfl⟩
          | exact ⟨hact, rfl, rfl, rfl, rfl, rfl, rfl, rfl⟩

/-- C10 witness: deleting the active Trip setlist resets the scheduler;
deleting Bad while Trip is active leaves it untouched. -/
theorem setlist_delete_spec_witness :
    (∀ s1 : SchedState, setlist_load demoRepo (initialSched demoStore) "Trip" = (s1, .ok) →
      ((setlist_delete s1 "Trip").1.activeSetlist = none ∧
       (setlist_delete s1 "Bad").1.activeSetlist = s1.activeSetlist)) := by
  intro s1 hload
  obtain ⟨s2, heq, hact, -⟩ :=
    ((setlist_load_spec demoRepo (initialSched demoStore) "Trip").2 tripSetlist
      (by decide)).2 (by decide)
  rw [hload] at heq
  obtain rfl : s1 = s2 := congrArg Prod.fst heq
  constructor
  · exact ((setlist_delete_spec s1 "Trip").1 tripSetlist hact (by decide)).1
  · exact ((setlist_delete_spec s1 "Bad").2 (by
      intro sl hsl
      rw [hact] at hsl
      obtain rfl : tripSetlist = sl := Option.some.inj hsl
      decide)).1

/-! ### C3: at most one armed chapter-advance timer -/

/-- Timer well-formedness: at most one armed advance timer, every armed timer
is the tracked one, none armed while paused or with no setlist loaded, and
exactly one armed while playback is published active and unpaused. -/
def TimerWf (s : SchedState) : Prop :=
  s.armed.length ≤ 1 ∧
  (∀ t ∈ s.armed, s.playbackTimer = some t.tid) ∧
  (s.isPaused = true → s.armed = []) ∧
  (s.activeSetlist = none → s.armed = []) ∧
  (s.playback.active = true → s.isPaused = false → s.armed.length = 1)

/-- A state with no armed timer and inactive published playback satisfies the
invariant. -/
theorem timerWf_of_nil (s : SchedState) (harm : s.armed = [])
    (hpb : s.playback.active = false) : TimerWf s := by
  refine ⟨by simp [harm], ?_, fun _ => harm, fun _ => harm, ?_⟩
  · intro t ht
    rw [harm] at ht
    cases ht
  · intro hactive _
    rw [hpb] at hactive
    cases hactive

/-- Scheduling from a state with no armed timer either completes (marking
playback inactive) or arms exactly one fresh tracked timer. -/
theorem timerWf_schedule_of_nil (x : SchedState) (sl : Setlist) (now : ℚ)
    (hact : x.activeSetlist = some sl) (hpause : x.isPaused = false)
    (harm : x.armed = []) : TimerWf (scheduleNextChapter x now) := by
  simp only [scheduleNextChapter, hact]
  rw [if_neg (by simp [hpause])]
  split
  · exact timerWf_of_nil _ harm rfl
  · refine ⟨?_, ?_, ?_, ?_, ?_⟩
    · show (x.armed ++ [_]).length ≤ 1
      rw [harm]
      simp
    · intro t ht
      have ht2 : t ∈ x.armed ++ [(⟨x.nextTimerId, _, _⟩ : TimerInfo)] := ht
      rw [harm] at ht2
      rcases List.mem_singleton.1 (by simpa using ht2) with rfl
      rfl
    · intro hp
      have hp2 : x.isPaused = true := hp
      rw [hpause] at hp2
      cases hp2
    · intro hn
      have hn2 : (some sl : Option Setlist) = none := hn
      cases hn2
    · intro _ _
      show (x.armed ++ [_]).length = 1
      rw [harm]
      simp

/-- Loading preserves the timer invariant. -/
theorem timerWf_load (repo : PresetRepo) (s : SchedState) (name : String)
    (h : TimerWf s) : TimerWf (setlist_load repo s name).1 := by
  obtain ⟨h1, h2, h3, h4, h5⟩ := h
  cases hsl : getSetlist s.setlistStore name with
  | none => simpa [setlist_load, hsl] using ⟨h1, h2, h3, h4, h5⟩
  | some sl =>
    simp only [setlist_load, hsl]
    split
    · exact ⟨h1, h2, h3, h4, h5⟩
    · apply timerWf_of_nil
      · show (clearPlayback _).armed = []
        apply clearPlayback_armed_of_tracked
        exact h2
      · rfl

/-- Play preserves the timer invariant provided no timer is already armed. -/
theorem timerWf_play (repo : PresetRepo) (s : SchedState) (now : ℚ)
    (h : TimerWf s) (hplay : s.armed = []) : TimerWf (setlist_play repo s now).1 := by
  obtain ⟨h1, h2, h3, h4, h5⟩ := h
  cases hact : s.activeSetlist with
  | none => simpa [setlist_play, hact] using ⟨h1, h2, h3, h4, h5⟩
  | some sl =>
    simp only [setlist_play, hact]
    split
    · refine timerWf_schedule_of_nil _ sl now ?_ rfl hplay
      simp [hact]
    · refine timerWf_schedule_of_nil _ sl now ?_ rfl hplay
      simp [hact]

/-- Pause preserves the timer invariant. -/
theorem timerWf_pause (s : SchedState) (now : ℚ) (h : TimerWf s) :
    TimerWf (setlist_pause s now).1 := by
  obtain ⟨h1, h2, h3, h4, h5⟩ := h
  cases hact : s.activeSetlist with
  | none => simpa [setlist_pause, hact] using ⟨h1, h2, h3, h4, h5⟩
  | some sl =>
    by_cases hp : s.isPaused = true
    · simpa [setlist_pause, hact, hp] using ⟨h1, h2, h3, h4, h5⟩
    · simp only [setlist_pause, hact]
      rw [if_neg hp]
      apply timerWf_of_nil
      · split
        · split
          · show (clearPlayback _).armed = []
            apply clearPlayback_armed_of_tracked
            exact h2
          · show (clearPlayback _).armed = []
            apply clearPlayback_armed_of_tracked
            exact h2
        · show (clearPlayback _).armed = []
          apply clearPlayback_armed_of_tracked
          exact h2
      · rfl

/-- Jump preserves the timer invariant. -/
theorem timerWf_jump (repo : PresetRepo) (s : SchedState) (now : ℚ) (arg : JumpArg)
    (h : TimerWf s) : TimerWf (setlist_jump repo s now arg).1 := by
  obtain ⟨h1, h2, h3, h4, h5⟩ := h
  cases hact : s.activeSetlist with
  | none => simpa [setlist_jump, hact] using ⟨h1, h2, h3, h4, h5⟩
  | some sl =>
    cases hrt : resolveJumpTarget sl arg with
    | none => simpa [setlist_jump, hact, hrt] using ⟨h1, h2, h3, h4, h5⟩
    | some ti =>
      have harm1 : (clearPlayback s).armed = [] := clearPlayback_armed_of_tracked s h2
      simp only [setlist_jump, hact, hrt]
      cases hpr : (pushChapter repo (sl.chapters.getD ti defChapter) ti
          sl.chapters.length).shaderId with
      | none =>
        simp only [hpr]
        by_cases hp : s.isPaused = true
        · rw [if_pos (show (clearPlayback s).isPaused = true from
            ((clearPlayback_fields s).2.2.2.1).trans hp)]
          refine ⟨by simp [harm1], ?_, fun _ => harm1, fun _ => harm1, ?_⟩
          · intro t ht
            have ht2 : t ∈ (clearPlayback s).armed := ht
            rw [harm1] at ht2
            cases ht2
          · intro _ hnp
            have hnp2 : (clearPlayback s).isPaused = false := hnp
            rw [(clearPlayback_fields s).2.2.2.1, hp] at hnp2
            cases hnp2
        · rw [if_neg (show ¬ (clearPlayback s).isPaused = true from by
            rw [(clearPlayback_fields s).2.2.2.1]; exact hp)]
          refine timerWf_schedule_of_nil _ sl now ?_ ?_ harm1
          · show (clearPlayback s).activeSetlist = some sl
            rw [(clearPlayback_fields s).1]
            exact hact
          · show (clearPlayback s).isPaused = false
            rw [(clearPlayback_fields s).2.2.2.1]
            simpa using hp
      | some sid =>
        simp only [hpr]
        by_cases hp : s.isPaused = true
        · rw [if_pos (show (clearPlayback s).isPaused = true from
            ((clearPlayback_fields s).2.2.2.1).trans hp)]
          refine ⟨by simp [harm1], ?_, fun _ => harm1, fun _ => harm1, ?_⟩
          · intro t ht
            have ht2 : t ∈ (clearPlayback s).armed := ht
            rw [harm1] at ht2
            cases ht2
          · intro _ hnp
            have hnp2 : (clearPlayback s).isPaused = false := hnp
            rw [(clearPlayback_fields s).2.2.2.1, hp] at hnp2
            cases hnp2
        · rw [if_neg (show ¬ (clearPlayback s).isPaused = true from by
            rw [(clearPlayback_fields s).2.2.2.1]; exact hp)]
          refine timerWf_schedule_of_nil _ sl now ?_ ?_ harm1
          · show (clearPlayback s).activeSetlist = some sl
            rw [(clearPlayback_fields s).1]
            exact hact
          · show (clearPlayback s).isPaused = false
            rw [(clearPlayback_fields s).2.2.2.1]
            simpa using hp

/-- Timer firing preserves the timer invariant. -/
theorem timerWf_fire (repo : PresetRepo) (s : SchedState) (tid : ℕ) (now : ℚ)
    (h : TimerWf s) : TimerWf (fireAdvanceTimer repo s tid now).1 := by
  obtain ⟨h1, h2, h3, h4, h5⟩ := h
  cases hf : s.armed.find? (fun x => x.tid = tid) with
  | none => simpa [fireAdvanceTimer, hf] using ⟨h1, h2, h3, h4, h5⟩
  | some info =>
    have hmem : info ∈ s.armed := List.mem_of_find?_eq_some hf
    have hsingle : s.armed = [info] := by
      cases harm : s.armed with
      | nil =>
        rw [harm] at hmem
        cases hmem
      | cons a t =>
        rw [harm] at hmem h1
        simp only [List.length_cons] at h1
        have ht0 : t = [] := List.length_eq_zero.1 (by omega)
        subst ht0
        rcases List.mem_singleton.1 hmem with rfl
        rfl
    have htid : info.tid = tid := by simpa using List.find?_some hf
    have harmf : s.armed.filter (fun x => x.tid ≠ tid) = [] := by
      rw [hsingle]
      simp [htid]
    obtain ⟨sl, hact⟩ : ∃ sl, s.activeSetlist = some sl := by
      cases hso : s.activeSetlist with
      | none =>
        rw [h4 hso] at hmem
        cases hmem
      | some sl => exact ⟨sl, rfl⟩
    have hpz : s.isPaused = false := by
      cases hb : s.isPaused with
      | false => rfl
      | true =>
        rw [h3 hb] at hmem
        cases hmem
    simp only [fireAdvanceTimer, hf, hact]
    cases hpr : (pushChapter repo (sl.chapters.getD info.nextIndex defChapter) info.nextIndex
        sl.chapters.length).shaderId with
    | none =>
      simp only [hpr]
      exact timerWf_schedule_of_nil _ sl now (by simp [hact]) hpz harmf
    | some sid =>
      simp only [hpr]
      exact timerWf_schedule_of_nil _ sl now (by simp [hact]) hpz harmf

/-- Deleting preserves the timer invariant. -/
theorem timerWf_delete (s : SchedState) (name : String) (h : TimerWf s) :
    TimerWf (setlist_delete s name).1 := by
  obtain ⟨h1, h2, h3, h4, h5⟩ := h
  cases hact : s.activeSetlist with
  | none =>
    simp only [setlist_delete, hact]
    split
    · exact ⟨h1, h2, h3, fun _ => h4 hact, h5⟩
    · exact ⟨h1, h2, h3, fun _ => h4 hact, h5⟩
  | some sl =>
    by_cases hname : sl.name = name
    · simp only [setlist_delete, hact, if_pos hname]
      split
      · apply timerWf_of_nil
        · show (clearPlayback _).armed = []
          apply clearPlayback_armed_of_tracked
          exact h2
        · rfl
      · apply timerWf_of_nil
        · show (clearPlayback _).armed = []
          apply clearPlayback_armed_of_tracked
          exact h2
        · rfl
    · simp only [setlist_delete, hact, if_neg hname]
      split
      · refine ⟨h1, h2, h3, ?_, h5⟩
        intro hn
        simp at hn
      · exact ⟨h1, h2, h3, h4, h5⟩

/-- One scheduler step preserves the timer invariant, provided play is only
invoked with no armed timer. -/
theorem timerWf_step (repo : PresetRepo) (now : ℚ) (s : SchedState) (op : SchedOp)
    (h : TimerWf s) (hplay : op = SchedOp.play → s.armed = []) :
    TimerWf (schedStep repo now s op) := by
  cases op with
  | load name => exact timerWf_load repo s name h
  | play => exact timerWf_play repo s now h (hplay rfl)
  | pause => exact timerWf_pause s now h
  | jump arg => exact timerWf_jump repo s now arg h
  | fire t => exact timerWf_fire repo s t now h
  | delete name => exact timerWf_delete s name h

/-- Operation sequences that never invoke play while a timer is armed. -/
def PlaySafe (repo : PresetRepo) : SchedState → List (ℚ × SchedOp) → Prop
  | _, [] => True
  | s, (now, op) :: rest =>
    (op = SchedOp.play → s.armed = []) ∧ PlaySafe repo (schedStep repo now s op) rest

/-- The timer invariant is preserved along any play-safe run. -/
theorem runSched_timerWf (repo : PresetRepo) (ops : List (ℚ × SchedOp)) :
    ∀ s : SchedState, TimerWf s → PlaySafe repo s ops →
      TimerWf (runSched repo s ops) := by
  induction ops with
  | nil => exact fun s h _ => h
  | cons p rest ih =>
    intro s h hsafe
    obtain ⟨now, op⟩ := p
    exact ih _ (timerWf_step repo now s op h hsafe.1) hsafe.2

/-- The initial scheduler state satisfies the timer invariant. -/
theorem timerWf_initial (store : SetlistStore) : TimerWf (initialSched store) := by
  refine ⟨by simp [initialSched], ?_, fun _ => rfl, fun _ => rfl, ?_⟩
  · intro t ht
    cases ht
  · intro hactive _
    cases hactive

/-- C3 counterexample: calling play twice in a row while already playing
leaves TWO armed chapter-advance timers (play never cancels the pending
timer), in a state that is playing and unpaused, contradicting the claimed
at-most-one invariant. -/
theorem play_twice_two_timers :
    (runSched demoRepo (initialSched demoStore)
      [(0, SchedOp.load "Trip"), (1000000, SchedOp.play),
       (1000100, SchedOp.play)]).armed.length = 2 ∧
    (runSched demoRepo (initialSched demoStore)
      [(0, SchedOp.load "Trip"), (1000000, SchedOp.play),
       (1000100, SchedOp.play)]).isPaused = false ∧
    (runSched demoRepo (initialSched demoStore)
      [(0, SchedOp.load "Trip"), (1000000, SchedOp.play),
       (1000100, SchedOp.play)]).playback.active = true := by
  refine ⟨?_, ?_, ?_⟩ <;> decide

/-- C3 amended: along any operation sequence in which play is never invoked
while an advance timer is already armed, at most one chapter-advance timer is
outstanding: exactly one while playback is published active and unpaused,
none while paused or with no timeline loaded. The play restriction is
necessary: play does not cancel the pending timer, so play while playing
arms a second timer. -/
theorem timer_at_most_one_play_safe (repo : PresetRepo) (store : SetlistStore)
    (ops : List (ℚ × SchedOp)) (h : PlaySafe repo (initialSched store) ops) :
    (runSched repo (initialSched store) ops).armed.length ≤ 1 ∧
    ((runSched repo (initialSched store) ops).isPaused = true →
      (runSched repo (initialSched store) ops).armed = []) ∧
    ((runSched repo (initialSched store) ops).activeSetlist = none →
      (runSched repo (initialSched store) ops).armed = []) ∧
    ((runSched repo (initialSched store) ops).playback.active = true →
      (runSched repo (initialSched store) ops).isPaused = false →
      (runSched repo (initialSched store) ops).armed.length = 1) := by
  obtain ⟨h1, h2, h3, h4, h5⟩ :=
    runSched_timerWf repo ops (initialSched store) (timerWf_initial store) h
  exact ⟨h1, h3, h4, h5⟩

/-- C3 amended witness: the invariant instantiated on the play-safe sequence
load, play, pause, play. -/
theorem timer_at_most_one_play_safe_witness :
    (runSched demoRepo (initialSched demoStore)
      [(0, SchedOp.load "Trip"), (1000000, SchedOp.play), (1001000, SchedOp.pause),
       (1002000, SchedOp.play)]).armed.length ≤ 1 := by
  refine (timer_at_most_one_play_safe demoRepo demoStore _ ?_).1
  simp only [PlaySafe]
  refine ⟨fun hq => (nomatch hq), ?_⟩
  refine ⟨fun _ => by decide, ?_⟩
  refine ⟨fun hq => (nomatch hq), ?_⟩
  exact ⟨fun _ => by decide, trivial⟩

end ShadeConductor
